import Mathlib

/-!
Shallow embedding of the core of the rCore teaching kernel
(LearningOS/2024a-rcore-ProerLoneW): synchronization primitives
(`src/os/src/sync/semaphore.rs`, `src/os/src/sync/mutex.rs`), the process
syscalls (`src/os/src/syscall/process.rs`) and the task control block
(`src/os/src/task/task.rs`).

Tasks are identified by their tid (`usize`), so a `wait_queue:
VecDeque<Arc<TaskControlBlock>>` is embedded as a `List Nat` of the queued
tasks' tids, and `allocate_tid: Vec<usize>` as a `List Nat`.  Blocking
operations return, next to the new inner state, what the scheduler-facing
side effect was (whether the caller blocked; which task was woken), since
those effects are what the claims speak about.
-/

namespace RCore

/-! ## Semaphore (`src/os/src/sync/semaphore.rs`) -/

/-- `SemaphoreInner { count: isize, allocate_tid: Vec<usize>, wait_queue:
VecDeque<Arc<TaskControlBlock>> }`. -/
structure SemaphoreInner where
  count : Int
  allocate_tid : List Nat
  wait_queue : List Nat
  deriving Repr, DecidableEq

/-- `Semaphore::new(res_count)`: count starts at `res_count as isize`,
holder list and wait queue empty. -/
def Semaphore.new (res_count : Nat) : SemaphoreInner :=
  ⟨(res_count : Int), [], []⟩

/-- The `for i in 0..n { if allocate_tid[i] == tid { remove(i); break } }`
loop of `Semaphore::up`: removes the first occurrence of `tid`, if any. -/
def removeFirstTid (tid : Nat) : List Nat → List Nat
  | [] => []
  | x :: xs => if x = tid then xs else x :: removeFirstTid tid xs

/-- `Semaphore::up`, called by the task with tid `tid`.  Returns the new
inner state and the tid of the task passed to `wakeup_task`, if any.
The source removes the caller's tid from `allocate_tid`, increments
`count`, and if `count <= 0` pops the head of `wait_queue`, pushes the
*caller's* tid (it re-reads `current_task`'s tid, not the popped task's)
onto `allocate_tid`, and wakes the popped task. -/
def Semaphore.up (tid : Nat) (s : SemaphoreInner) : SemaphoreInner × Option Nat :=
  if s.count + 1 ≤ 0 then
    match s.wait_queue with
    | task :: rest => (⟨s.count + 1, removeFirstTid tid s.allocate_tid ++ [tid], rest⟩, some task)
    | [] => (⟨s.count + 1, removeFirstTid tid s.allocate_tid, []⟩, none)
  else
    (⟨s.count + 1, removeFirstTid tid s.allocate_tid, s.wait_queue⟩, none)

/-- `Semaphore::down`, called by the task with tid `tid`.  Returns the new
inner state and whether the caller blocked (`block_current_and_run_next`).
The source decrements `count`; if the result is negative it enqueues the
caller and blocks, otherwise it pushes the caller's tid onto
`allocate_tid`. -/
def Semaphore.down (tid : Nat) (s : SemaphoreInner) : SemaphoreInner × Bool :=
  if s.count - 1 < 0 then
    (⟨s.count - 1, s.allocate_tid, s.wait_queue ++ [tid]⟩, true)
  else
    (⟨s.count - 1, s.allocate_tid ++ [tid], s.wait_queue⟩, false)

/-- One `up`/`down` call, tagged with the calling task's tid. -/
inductive SemOp where
  | down (tid : Nat)
  | up (tid : Nat)
  deriving Repr, DecidableEq

/-- Run a sequence of semaphore operations, keeping only the inner state. -/
def runSemOps : List SemOp → SemaphoreInner → SemaphoreInner
  | [], s => s
  | SemOp.down t :: ops, s => runSemOps ops (Semaphore.down t s).1
  | SemOp.up t :: ops, s => runSemOps ops (Semaphore.up t s).1

/-- Iterate `Semaphore.up` over a list of caller tids, collecting the tids
of the tasks woken, in order. -/
def Semaphore.upN (ts : List Nat) (s : SemaphoreInner) : SemaphoreInner × List Nat :=
  match ts with
  | [] => (s, [])
  | t :: ts' =>
    let p := Semaphore.up t s
    let q := Semaphore.upN ts' p.1
    (q.1, p.2.toList ++ q.2)

/-! ## Blocking mutex (`src/os/src/sync/mutex.rs`, `MutexBlocking`) -/

/-- `MutexBlockingInner { locked: bool, allocate_tid: usize, wait_queue:
VecDeque<Arc<TaskControlBlock>> }`. -/
structure MutexBlockingInner where
  locked : Bool
  allocate_tid : Nat
  wait_queue : List Nat
  deriving Repr, DecidableEq

/-- `MutexBlocking::new()`. -/
def MutexBlocking.new : MutexBlockingInner :=
  ⟨false, 0, []⟩

/-- `MutexBlocking::lock`, called by the task with tid `tid`.  Returns the
new inner state and whether the caller blocked.  If `locked`, the caller is
pushed onto the back of `wait_queue` and blocks; otherwise `allocate_tid`
is set to the caller's tid and `locked` to true. -/
def MutexBlocking.lock (tid : Nat) (s : MutexBlockingInner) : MutexBlockingInner × Bool :=
  if s.locked then
    (⟨s.locked, s.allocate_tid, s.wait_queue ++ [tid]⟩, true)
  else
    (⟨true, tid, s.wait_queue⟩, false)

/-- `MutexBlocking::unlock`.  `none` models the fatal
`assert!(mutex_inner.locked)` failure.  Otherwise returns the new inner
state and the tid passed to `wakeup_task`, if any: a non-empty wait queue
is popped at the front and its head woken, with `locked` and
`allocate_tid` left untouched; an empty queue clears `locked`. -/
def MutexBlocking.unlock (s : MutexBlockingInner) : Option (MutexBlockingInner × Option Nat) :=
  if s.locked then
    match s.wait_queue with
    | w :: rest => some (⟨s.locked, s.allocate_tid, rest⟩, some w)
    | [] => some (⟨false, s.allocate_tid, []⟩, none)
  else
    none

/-- Iterate `MutexBlocking.unlock` `n` times, collecting the woken tids in
order; iteration stops when an unlock wakes nobody (empty queue) or hits
the assertion failure. -/
def MutexBlocking.unlockN : Nat → MutexBlockingInner → MutexBlockingInner × List Nat
  | 0, s => (s, [])
  | n + 1, s =>
    match MutexBlocking.unlock s with
    | some (s', some w) =>
      let q := MutexBlocking.unlockN n s'
      (q.1, w :: q.2)
    | some (s', none) => (s', [])
    | none => (s, [])

/-! ## Spin mutex (`src/os/src/sync/mutex.rs`, `MutexSpin`) -/

/-- `MutexSpin { allocate_tid: UPSafeCell<usize>, locked: UPSafeCell<bool> }`. -/
structure MutexSpinState where
  allocate_tid : Nat
  locked : Bool
  deriving Repr, DecidableEq

/-- `MutexSpin::new()`: `allocate_tid` starts at 0, `locked` at false. -/
def MutexSpin.new : MutexSpinState :=
  ⟨0, false⟩

/-- One iteration of the `MutexSpin::lock` busy-poll loop, executed by the
task with tid `tid`: `none` models "mutex held, caller suspends and
retries"; `some` is a successful acquisition.  The source only sets
`locked` to true and returns — it never writes `allocate_tid` and never
reads the current task, which is why the `tid` argument is unused. -/
def MutexSpin.lock (_tid : Nat) (s : MutexSpinState) : Option MutexSpinState :=
  if s.locked then none
  else some ⟨s.allocate_tid, true⟩

/-- `MutexSpin::unlock`: clears the flag. -/
def MutexSpin.unlock (s : MutexSpinState) : MutexSpinState :=
  ⟨s.allocate_tid, false⟩

/-- `MutexSpin::get_allocation`: `None` when unlocked, otherwise the
single-element vector `[allocate_tid]`. -/
def MutexSpin.get_allocation (s : MutexSpinState) : Option (List Nat) :=
  if s.locked = false then none
  else some [s.allocate_tid]

/-! ## Task control block (`src/os/src/task/task.rs`) -/

/-- `TaskStatus` of `task.rs`: UnInit / Ready / Running / Exited. -/
inductive TaskStatus where
  | UnInit
  | Ready
  | Running
  | Exited
  deriving Repr, DecidableEq

/-- `MAX_SYSCALL_NUM` (`TaskControlBlock::new` fills `[0; 500]`). -/
def MAX_SYSCALL_NUM : Nat := 500

/-- `TaskControlBlock` of `task.rs`; `task_cx: TaskContext` is an opaque
register snapshot and is not part of any claim, so it is omitted.
`syscall_count: [u32; MAX_SYSCALL_NUM]` is a list of u32 values. -/
structure TaskControlBlock where
  task_status : TaskStatus
  start_time : Nat
  syscall_count : List Nat
  deriving Repr, DecidableEq

/-- `TaskControlBlock::new()`. -/
def TaskControlBlock.new : TaskControlBlock :=
  ⟨TaskStatus.UnInit, 0, List.replicate 500 0⟩

/-- `TaskControlBlock::increment_syscall_count(syscall_id)`: guarded
in-place `+= 1` (u32 arithmetic) at index `syscall_id`. -/
def TaskControlBlock.increment_syscall_count (t : TaskControlBlock) (syscall_id : Nat) :
    TaskControlBlock :=
  if syscall_id < MAX_SYSCALL_NUM then
    { t with syscall_count :=
        t.syscall_count.set syscall_id ((t.syscall_count.getD syscall_id 0 + 1) % 2 ^ 32) }
  else t

/-! ## `sys_waitpid` (`src/os/src/syscall/process.rs`) -/

/-- A child process as `sys_waitpid` sees it: its pid, whether its status
is Zombie, and its recorded exit code. -/
structure ChildProc where
  pid : Nat
  is_zombie : Bool
  exit_code : Int
  deriving Repr, DecidableEq

/-- Rust's `as usize` cast of the `pid: isize` argument. -/
def usizeCast (i : Int) : Nat :=
  (i % (2 ^ 64 : Int)).toNat

/-- The match predicate of `sys_waitpid`:
`pid == -1 || pid as usize == p.getpid()`. -/
def matchesPid (pid : Int) (p : ChildProc) : Bool :=
  pid == -1 || usizeCast pid == p.pid

/-- `children.iter().enumerate().find(pred)`: first index/element
satisfying the predicate. -/
def findEnum (f : ChildProc → Bool) : List ChildProc → Option (Nat × ChildProc)
  | [] => none
  | c :: cs => if f c then some (0, c) else (findEnum f cs).map (fun ic => (ic.1 + 1, ic.2))

/-- `sys_waitpid(pid, exit_code_ptr)`: returns the new child list, the
exit code written through `exit_code_ptr` (if any), and the syscall
result.  `-1` when no child matches `pid`; otherwise the first matching
Zombie child (if any) is removed from the list, its exit code written and
its pid returned; `-2` when a match exists but none is a Zombie. -/
def sys_waitpid (children : List ChildProc) (pid : Int) :
    List ChildProc × Option Int × Int :=
  if children.any (matchesPid pid) = false then (children, none, -1)
  else
    match findEnum (fun p => p.is_zombie && matchesPid pid p) children with
    | some (idx, child) => (children.eraseIdx idx, some child.exit_code, (child.pid : Int))
    | none => (children, none, -2)

/-! ## Address space, `sys_mmap` / `sys_munmap`
(`src/os/src/syscall/process.rs`; the `MemorySet` helpers
`check_vpn_range` / `insert_framed_area` / `find_exact_match` /
`remove_area` and `VirtAddr::floor` / `ceil` live in `mm/`, which is not
among the provided sources, and are modelled from the spec). -/

def PAGE_SIZE : Nat := 4096

/-- `MapPermission` bits R / W / X / U. -/
structure MapPermission where
  r : Bool
  w : Bool
  x : Bool
  u : Bool
  deriving Repr, DecidableEq

/-- Modelled from the spec: a mapped region of an address space, "each:
virtual page range [start, end), permission bits" (§3). -/
structure MapArea where
  vpn_start : Nat
  vpn_end : Nat
  perm : MapPermission
  deriving Repr, DecidableEq

/-- The address space's ordered set of areas. -/
abbrev MemorySet := List MapArea

/-- Modelled from the spec: `VirtAddr::floor()` — the number of the page
containing the address. -/
def vaFloor (va : Nat) : Nat := va / PAGE_SIZE

/-- Modelled from the spec: `VirtAddr::ceil()` — rounding up to a page
boundary ("mmap is lenient on length, rounding up to whole pages
internally", §6). -/
def vaCeil (va : Nat) : Nat := (va + PAGE_SIZE - 1) / PAGE_SIZE

/-- A page is mapped iff some area's page range contains it. -/
def MemorySet.isMapped (ms : MemorySet) (vpn : Nat) : Bool :=
  ms.any (fun a => decide (a.vpn_start ≤ vpn) && decide (vpn < a.vpn_end))

/-- Modelled from the spec: `check_vpn_range(start_page, end_page)`,
"true if any page in the half-open page range is already mapped" (§4.1). -/
def MemorySet.check_vpn_range (ms : MemorySet) (sp ep : Nat) : Bool :=
  (List.range (ep - sp)).any (fun i => ms.isMapped (sp + i))

/-- Modelled from the spec: `insert_framed_area(start, end, permission)`
adds an area covering pages `floor start` to `ceil end` with the given
permissions, and "Fails (no-op, caller must pre-check) if any page in
range is already mapped" (§4.1; §3: "any insertion first checks the
target range against all existing areas"). -/
def MemorySet.insert_framed_area (ms : MemorySet) (start_va end_va : Nat)
    (p : MapPermission) : MemorySet :=
  if ms.check_vpn_range (vaFloor start_va) (vaCeil end_va) then ms
  else ms ++ [⟨vaFloor start_va, vaCeil end_va, p⟩]

/-- The exact-bounds predicate of `find_exact_match` / `remove_area`
(§4.1: "returns the area whose bounds exactly equal the requested
range"): the area's page-range bounds, read as byte addresses, equal the
requested byte range exactly — nothing is rounded, so a range that is not
page-exact matches no area. -/
def boundsMatch (start_va end_va : Nat) (a : MapArea) : Bool :=
  decide (a.vpn_start * PAGE_SIZE = start_va) && decide (a.vpn_end * PAGE_SIZE = end_va)

/-- Modelled from the spec: `find_exact_match(start, end)` "returns the
area whose bounds exactly equal the requested range" (§4.1). -/
def MemorySet.find_exact_match (ms : MemorySet) (start_va end_va : Nat) : Option MapArea :=
  ms.find? (boundsMatch start_va end_va)

/-- Modelled from the spec: `remove_area(start, end)` releases the
exactly-matched area (§4.1). -/
def MemorySet.remove_area (ms : MemorySet) (start_va end_va : Nat) : MemorySet :=
  ms.eraseP (boundsMatch start_va end_va)

/-- The permission decode of `sys_mmap`: the `match _port & 0x7` table
(the `_ => return -1` arm is unreachable once `_port & 0x7 == 0` has been
rejected). -/
def decodePort (port : Nat) : Option MapPermission :=
  match port % 8 with
  | 1 => some ⟨true, false, false, false⟩
  | 2 => some ⟨false, true, false, false⟩
  | 3 => some ⟨true, true, false, false⟩
  | 4 => some ⟨false, false, true, false⟩
  | 5 => some ⟨true, false, true, false⟩
  | 6 => some ⟨false, true, true, false⟩
  | 7 => some ⟨true, true, true, false⟩
  | _ => none

/-- `sys_mmap(start, len, port)` on the caller's memory set: rejects (-1,
memory set unchanged) an unaligned `start`, a `port` with bits above the
low 3 set (`port & !0x7 != 0`, i.e. `8 ≤ port`) or with all low bits zero
(`port & 0x7 == 0`, i.e. `port % 8 = 0`), and an overlap reported by
`check_vpn_range(start_va.floor(), end_va.floor())`; otherwise inserts a
framed area for the range with the decoded permissions plus U and
returns 0. -/
def sys_mmap (ms : MemorySet) (start len port : Nat) : MemorySet × Int :=
  if start % PAGE_SIZE ≠ 0 then (ms, -1)
  else if 8 ≤ port ∨ port % 8 = 0 then (ms, -1)
  else
    match decodePort port with
    | none => (ms, -1)
    | some p =>
      if ms.check_vpn_range (vaFloor start) (vaFloor (start + len)) then (ms, -1)
      else (ms.insert_framed_area start (start + len) { p with u := true }, 0)

/-- `sys_munmap(start, len)`: rejects (-1) `len == 0` or an unaligned
`start`; otherwise removes the exactly-matching area and returns 0, or
returns -1 (unmapping nothing) when no area matches exactly. -/
def sys_munmap (ms : MemorySet) (start len : Nat) : MemorySet × Int :=
  if len = 0 ∨ start % PAGE_SIZE ≠ 0 then (ms, -1)
  else
    match ms.find_exact_match start (start + len) with
    | some _ => (ms.remove_area start (start + len), 0)
    | none => (ms, -1)

/-! ## User/kernel pointer bridge and the record-writing syscalls
(`sys_get_time` / `sys_task_info` in `src/os/src/syscall/process.rs`;
`translated_byte_buffer` lives in `mm/page_table.rs`, not among the
provided sources, and is modelled from the spec). -/

/-- Modelled from the spec: `translated_byte_buffer(token, ptr, len)` for
a record of length `len ≤ PAGE_SIZE` starting at page offset `off`
returns the lengths of the kernel-visible ranges: one range when the
record lies inside one page, exactly two — split at the page boundary —
when it straddles it (§4.5). -/
def translated_byte_buffer_lens (off len : Nat) : List Nat :=
  if off + len ≤ PAGE_SIZE then [len]
  else [PAGE_SIZE - off, len - (PAGE_SIZE - off)]

/-- Writing `record` through a raw pointer to the start of the first
kernel-visible range (`*(buffers[0].as_mut_ptr() as *mut T) = v`): the
first `b0.length` bytes land inside the range; any remaining bytes land
in whatever physically follows that range (returned as "spilled"). -/
def writeThroughFirstRange (record b0 : List Nat) : List Nat × List Nat :=
  (record.take b0.length ++ b0.drop record.length, record.drop b0.length)

/-- Outcome of a bridged record write: the contents of the kernel-visible
ranges afterwards, the bytes written outside any range, and the syscall
result. -/
structure BridgedWrite where
  ranges : List (List Nat)
  spilled : List Nat
  ret : Int
  deriving Repr, DecidableEq

/-- `sys_get_time`'s store of the record bytes (a 16-byte `TimeVal`) into
the bridged ranges `buffers` (given with their current contents): both
the one-range branch and the "cross-page" two-range branch execute the
same raw-pointer store through `buffers[0]`; any other shape returns -1. -/
def sys_get_time_write (record : List Nat) (buffers : List (List Nat)) : BridgedWrite :=
  match buffers with
  | [b0] =>
    ⟨[(writeThroughFirstRange record b0).1], (writeThroughFirstRange record b0).2, 0⟩
  | [b0, b1] =>
    ⟨[(writeThroughFirstRange record b0).1, b1], (writeThroughFirstRange record b0).2, 0⟩
  | _ => ⟨buffers, [], -1⟩

/-- `sys_task_info`'s store of the record bytes (a serialized `TaskInfo`)
into the bridged ranges: one range receives the record via a raw-pointer
store; two ranges receive `record.split_at(buffers[0].len())` via
`copy_from_slice`; any other shape returns -1. -/
def sys_task_info_write (record : List Nat) (buffers : List (List Nat)) : BridgedWrite :=
  match buffers with
  | [b0] =>
    ⟨[(writeThroughFirstRange record b0).1], (writeThroughFirstRange record b0).2, 0⟩
  | [b0, _] =>
    ⟨[record.take b0.length, record.drop b0.length], [], 0⟩
  | _ => ⟨buffers, [], -1⟩

/-- The semaphore state invariant of the spec: `count < 0` iff the wait
queue is non-empty, and when `count < 0` the queue length equals
`|count|`. -/
def SemInvariant (s : SemaphoreInner) : Prop :=
  (s.count < 0 ↔ s.wait_queue ≠ []) ∧
  (s.count < 0 → (s.wait_queue.length : Int) = -s.count)

instance (s : SemaphoreInner) : Decidable (SemInvariant s) := by
  unfold SemInvariant
  infer_instance

end RCore

namespace RCore

/-! ## Claim theorems: semaphore and blocking mutex -/

/-- **C1** (code bug witness).  `Semaphore::up` by caller tid 5 on state
`⟨count := -1, allocate_tid := [5], wait_queue := [7]⟩`: the head task 7 is
dequeued and woken, but the tid pushed onto `allocate_tid` is the caller's
own tid 5 (just removed), not the dequeued task's tid 7 — `up` re-reads
`current_task`'s tid instead of the popped task's, so the woken task never
enters the holder set. -/
theorem semaphore_up_pushes_caller_tid_not_woken_tid :
    (Semaphore.up 5 ⟨-1, [5], [7]⟩).2 = some 7 ∧
    (Semaphore.up 5 ⟨-1, [5], [7]⟩).1.allocate_tid = [5] ∧
    ¬ (7 ∈ (Semaphore.up 5 ⟨-1, [5], [7]⟩).1.allocate_tid) := by
  decide

/-- **C2**.  `MutexBlocking::unlock`: on an unlocked mutex it is the fatal
assertion failure (`none`); on a locked mutex with a non-empty wait queue
it pops and wakes the head while leaving `locked` and `allocate_tid`
unchanged; only with an empty wait queue does it clear `locked`. -/
theorem mutexBlocking_unlock_correct (s : MutexBlockingInner) (w : Nat) (rest : List Nat) :
    (s.locked = false → MutexBlocking.unlock s = none) ∧
    (s.locked = true → s.wait_queue = w :: rest →
      MutexBlocking.unlock s = some (⟨true, s.allocate_tid, rest⟩, some w)) ∧
    (s.locked = true → s.wait_queue = [] →
      MutexBlocking.unlock s = some (⟨false, s.allocate_tid, []⟩, none)) := by
  refine ⟨fun h => ?_, fun h hq => ?_, fun h hq => ?_⟩
  · simp [MutexBlocking.unlock, h]
  · simp [MutexBlocking.unlock, h, hq]
  · simp [MutexBlocking.unlock, h, hq]

/-- Witness for `mutexBlocking_unlock_correct` at the concrete state
`⟨locked := true, allocate_tid := 4, wait_queue := [7, 9]⟩`. -/
theorem mutexBlocking_unlock_correct_witness :
    MutexBlocking.unlock ⟨true, 4, [7, 9]⟩ = some (⟨true, 4, [9]⟩, some 7) :=
  (mutexBlocking_unlock_correct ⟨true, 4, [7, 9]⟩ 7 [9]).2.1 rfl rfl

/-! ### Step equations for the semaphore and blocking mutex -/

theorem Semaphore.down_block (t : Nat) (s : SemaphoreInner) (h : s.count - 1 < 0) :
    Semaphore.down t s = (⟨s.count - 1, s.allocate_tid, s.wait_queue ++ [t]⟩, true) := by
  simp only [Semaphore.down]
  rw [if_pos h]

theorem Semaphore.down_pass (t : Nat) (s : SemaphoreInner) (h : ¬ s.count - 1 < 0) :
    Semaphore.down t s = (⟨s.count - 1, s.allocate_tid ++ [t], s.wait_queue⟩, false) := by
  simp only [Semaphore.down]
  rw [if_neg h]

theorem Semaphore.up_wake (t : Nat) (s : SemaphoreInner) (w : Nat) (rest : List Nat)
    (h : s.count + 1 ≤ 0) (hq : s.wait_queue = w :: rest) :
    Semaphore.up t s
      = (⟨s.count + 1, removeFirstTid t s.allocate_tid ++ [t], rest⟩, some w) := by
  simp only [Semaphore.up]
  rw [if_pos h, hq]

theorem Semaphore.up_emptyq (t : Nat) (s : SemaphoreInner)
    (h : s.count + 1 ≤ 0) (hq : s.wait_queue = []) :
    Semaphore.up t s = (⟨s.count + 1, removeFirstTid t s.allocate_tid, []⟩, none) := by
  simp only [Semaphore.up]
  rw [if_pos h, hq]

theorem Semaphore.up_pass (t : Nat) (s : SemaphoreInner) (h : ¬ s.count + 1 ≤ 0) :
    Semaphore.up t s
      = (⟨s.count + 1, removeFirstTid t s.allocate_tid, s.wait_queue⟩, none) := by
  simp only [Semaphore.up]
  rw [if_neg h]

theorem MutexBlocking.lock_blocked (t : Nat) (s : MutexBlockingInner) (h : s.locked = true) :
    MutexBlocking.lock t s = (⟨true, s.allocate_tid, s.wait_queue ++ [t]⟩, true) := by
  simp only [MutexBlocking.lock]
  rw [if_pos h, h]

theorem MutexBlocking.lock_acquire (t : Nat) (s : MutexBlockingInner) (h : s.locked = false) :
    MutexBlocking.lock t s = (⟨true, t, s.wait_queue⟩, false) := by
  simp only [MutexBlocking.lock]
  rw [if_neg (by rw [h]; simp)]

theorem MutexBlocking.unlock_wake (s : MutexBlockingInner) (w : Nat) (rest : List Nat)
    (h : s.locked = true) (hq : s.wait_queue = w :: rest) :
    MutexBlocking.unlock s = some (⟨true, s.allocate_tid, rest⟩, some w) := by
  simp only [MutexBlocking.unlock]
  rw [if_pos h, hq, h]

theorem MutexBlocking.unlock_clear (s : MutexBlockingInner)
    (h : s.locked = true) (hq : s.wait_queue = []) :
    MutexBlocking.unlock s = some (⟨false, s.allocate_tid, []⟩, none) := by
  simp only [MutexBlocking.unlock]
  rw [if_pos h, hq]

/-- A fresh semaphore satisfies the invariant. -/
theorem semInvariant_new (c : Nat) : SemInvariant (Semaphore.new c) := by
  constructor
  · simp [Semaphore.new]
  · intro h
    simp [Semaphore.new] at h
    omega

/-- `Semaphore.down` preserves the invariant. -/
theorem semInvariant_down (t : Nat) (s : SemaphoreInner) (h : SemInvariant s) :
    SemInvariant (Semaphore.down t s).1 := by
  obtain ⟨hiff, hlen⟩ := h
  by_cases hc : s.count - 1 < 0
  · rw [Semaphore.down_block t s hc]
    simp only [SemInvariant]
    refine ⟨⟨fun _ => by simp, fun _ => hc⟩, fun _ => ?_⟩
    rcases hq : s.wait_queue with _ | ⟨w, rest⟩
    · have hnneg : ¬ s.count < 0 := fun hneg => hiff.mp hneg hq
      simp only [hq, List.nil_append, List.length_cons, List.length_nil]
      push_cast
      omega
    · have hneg : s.count < 0 := hiff.mpr (by rw [hq]; simp)
      have hl := hlen hneg
      rw [hq] at hl
      simp only [List.length_cons] at hl
      simp only [hq, List.length_append, List.length_cons, List.length_nil]
      push_cast at hl ⊢
      omega
  · rw [Semaphore.down_pass t s hc]
    simp only [SemInvariant]
    have hqe : s.wait_queue = [] := by
      rcases hq2 : s.wait_queue with _ | ⟨w, rest⟩
      · rfl
      · exfalso
        have : s.count < 0 := hiff.mpr (by rw [hq2]; simp)
        omega
    rw [hqe]
    exact ⟨⟨fun h' => absurd h' hc, fun hne => absurd rfl hne⟩, fun h' => absurd h' hc⟩

/-- `Semaphore.up` preserves the invariant. -/
theorem semInvariant_up (t : Nat) (s : SemaphoreInner) (h : SemInvariant s) :
    SemInvariant (Semaphore.up t s).1 := by
  obtain ⟨hiff, hlen⟩ := h
  by_cases hc : s.count + 1 ≤ 0
  · rcases hq : s.wait_queue with _ | ⟨w, rest⟩
    · exfalso
      have hnneg : ¬ s.count < 0 := fun hneg => hiff.mp hneg hq
      omega
    · rw [Semaphore.up_wake t s w rest hc hq]
      simp only [SemInvariant]
      have hneg : s.count < 0 := hiff.mpr (by rw [hq]; simp)
      have hl := hlen hneg
      rw [hq] at hl
      simp only [List.length_cons] at hl
      push_cast at hl
      constructor
      · constructor
        · intro hlt hre
          rw [hre] at hl
          simp at hl
          omega
        · intro hne
          rcases rest with _ | ⟨x, xs⟩
          · exact absurd rfl hne
          · simp only [List.length_cons] at hl
            push_cast at hl
            omega
      · intro hlt
        omega
  · rw [Semaphore.up_pass t s hc]
    simp only [SemInvariant]
    have hqe : s.wait_queue = [] := by
      rcases hq2 : s.wait_queue with _ | ⟨w, rest⟩
      · rfl
      · exfalso
        have : s.count < 0 := hiff.mpr (by rw [hq2]; simp)
        omega
    rw [hqe]
    exact ⟨⟨fun h' => absurd h' (by omega), fun hne => absurd rfl hne⟩,
      fun h' => absurd h' (by omega)⟩

/-- The invariant holds after any sequence of operations from a fresh
semaphore. -/
theorem semInvariant_runSemOps (ops : List SemOp) (s : SemaphoreInner)
    (h : SemInvariant s) : SemInvariant (runSemOps ops s) := by
  induction ops generalizing s with
  | nil => exact h
  | cons op ops ih =>
    cases op with
    | down t => exact ih _ (semInvariant_down t s h)
    | up t => exact ih _ (semInvariant_up t s h)

/-- **C3**.  For a semaphore created with initial count `c`, after any
sequence of `down`/`up` operations the inner state satisfies: `count < 0`
iff the wait queue is non-empty, and when `count < 0` the queue length
equals `|count|`; and this invariant is preserved by every `down` and
every `up`. -/
theorem semaphore_count_invariant :
    (∀ (c : Nat) (ops : List SemOp), SemInvariant (runSemOps ops (Semaphore.new c))) ∧
    (∀ (s : SemaphoreInner) (t : Nat), SemInvariant s → SemInvariant (Semaphore.down t s).1) ∧
    (∀ (s : SemaphoreInner) (t : Nat), SemInvariant s → SemInvariant (Semaphore.up t s).1) :=
  ⟨fun c ops => semInvariant_runSemOps ops _ (semInvariant_new c),
   fun s t h => semInvariant_down t s h,
   fun s t h => semInvariant_up t s h⟩

/-- Witness for `semaphore_count_invariant`: a concrete run (initial count
1; three downs, one up) and concrete preservation instances. -/
theorem semaphore_count_invariant_witness :
    SemInvariant (runSemOps [SemOp.down 1, SemOp.down 2, SemOp.down 3, SemOp.up 1]
      (Semaphore.new 1)) ∧
    SemInvariant (Semaphore.down 4 ⟨-1, [1], [3]⟩).1 ∧
    SemInvariant (Semaphore.up 2 ⟨-1, [1], [3]⟩).1 :=
  ⟨semaphore_count_invariant.1 1 _,
   semaphore_count_invariant.2.1 ⟨-1, [1], [3]⟩ 4 (by decide),
   semaphore_count_invariant.2.2 ⟨-1, [1], [3]⟩ 2 (by decide)⟩

/-- Iterated unlock wakes exactly the first `n` queued tasks in queue
order. -/
theorem mutexBlocking_unlockN_woken (n : Nat) (s : MutexBlockingInner)
    (h : s.locked = true) :
    (MutexBlocking.unlockN n s).2 = s.wait_queue.take n := by
  induction n generalizing s with
  | zero => simp [MutexBlocking.unlockN]
  | succ n ih =>
    rcases hq : s.wait_queue with _ | ⟨w, rest⟩
    · simp only [MutexBlocking.unlockN, MutexBlocking.unlock_clear s h hq, hq,
        List.take_nil]
    · have hrec := ih ⟨true, s.allocate_tid, rest⟩ rfl
      simp only [MutexBlocking.unlockN, MutexBlocking.unlock_wake s w rest h hq, hq,
        List.take_succ_cons]
      rw [hrec]

/-- Iterated up (callers `ts`) wakes exactly the first `ts.length` queued
tasks in queue order, provided `count ≤ -ts.length` at the start. -/
theorem semaphore_upN_woken (ts : List Nat) (s : SemaphoreInner)
    (h : s.count ≤ -(ts.length : Int)) :
    (Semaphore.upN ts s).2 = s.wait_queue.take ts.length := by
  induction ts generalizing s with
  | nil => simp [Semaphore.upN]
  | cons t ts ih =>
    have hc : s.count + 1 ≤ 0 := by
      simp only [List.length_cons] at h
      push_cast at h
      omega
    rcases hq : s.wait_queue with _ | ⟨w, rest⟩
    · have hrec := ih ⟨s.count + 1, removeFirstTid t s.allocate_tid, []⟩
        (show s.count + 1 ≤ -(ts.length : Int) by
          simp only [List.length_cons] at h
          push_cast at h ⊢
          omega)
      simp only [Semaphore.upN, Semaphore.up_emptyq t s hc hq, hq, List.take_nil,
        Option.toList_none, List.nil_append]
      rw [hrec]
      simp
    · have hrec := ih ⟨s.count + 1, removeFirstTid t s.allocate_tid ++ [t], rest⟩
        (show s.count + 1 ≤ -(ts.length : Int) by
          simp only [List.length_cons] at h
          push_cast at h ⊢
          omega)
      simp only [Semaphore.upN, Semaphore.up_wake t s w rest hc hq, hq,
        List.take_succ_cons, Option.toList_some, List.singleton_append]
      rw [hrec]
      simp

/-- **C4**.  Wait queues are strict FIFO for both the blocking mutex and
the semaphore: a task blocking enqueues at the back and each release
dequeues at the front, so if A blocks before B and two releases occur, A
is woken strictly before B; in general `n` releases wake exactly the first
`n` enqueued tasks in enqueue order. -/
theorem fifo_wake_order :
    (∀ (s : MutexBlockingInner) (a b : Nat),
      s.locked = true → s.wait_queue = [] →
      (MutexBlocking.unlockN 2 (MutexBlocking.lock b (MutexBlocking.lock a s).1).1).2 = [a, b]) ∧
    (∀ (s : SemaphoreInner) (a b t1 t2 : Nat),
      s.count ≤ 0 → s.wait_queue = [] →
      (Semaphore.upN [t1, t2] (Semaphore.down b (Semaphore.down a s).1).1).2 = [a, b]) ∧
    (∀ (n : Nat) (s : MutexBlockingInner), s.locked = true →
      (MutexBlocking.unlockN n s).2 = s.wait_queue.take n) ∧
    (∀ (ts : List Nat) (s : SemaphoreInner), s.count ≤ -(ts.length : Int) →
      (Semaphore.upN ts s).2 = s.wait_queue.take ts.length) := by
  refine ⟨?_, ?_, mutexBlocking_unlockN_woken, semaphore_upN_woken⟩
  · intro s a b hl hq
    have h1 : (MutexBlocking.lock a s).1 = ⟨true, s.allocate_tid, [a]⟩ := by
      rw [MutexBlocking.lock_blocked a s hl, hq]
      rfl
    have h2 : (MutexBlocking.lock b (⟨true, s.allocate_tid, [a]⟩ : MutexBlockingInner)).1
        = ⟨true, s.allocate_tid, [a, b]⟩ := by
      rw [MutexBlocking.lock_blocked b ⟨true, s.allocate_tid, [a]⟩ rfl]
      rfl
    rw [h1, h2]
    exact mutexBlocking_unlockN_woken 2 ⟨true, s.allocate_tid, [a, b]⟩ rfl
  · intro s a b t1 t2 hc hq
    have h1 : (Semaphore.down a s).1 = ⟨s.count - 1, s.allocate_tid, [a]⟩ := by
      rw [Semaphore.down_block a s (by omega), hq]
      rfl
    have h2 : (Semaphore.down b (⟨s.count - 1, s.allocate_tid, [a]⟩ : SemaphoreInner)).1
        = ⟨s.count - 1 - 1, s.allocate_tid, [a, b]⟩ := by
      rw [Semaphore.down_block b ⟨s.count - 1, s.allocate_tid, [a]⟩
        (show s.count - 1 - 1 < 0 by omega)]
      rfl
    rw [h1, h2]
    have hwoken := semaphore_upN_woken [t1, t2] ⟨s.count - 1 - 1, s.allocate_tid, [a, b]⟩
      (show s.count - 1 - 1 ≤ -(([t1, t2].length : Nat) : Int) by
        simp only [List.length_cons, List.length_nil]
        push_cast
        omega)
    simpa using hwoken

/-- **C9** (code bug witness).  The task with tid 3 successfully acquires
the fresh spin mutex, yet `get_allocation` then reports tid 0 — the
initial value of `allocate_tid`, which `MutexSpin::lock` never updates —
rather than the acquirer's tid 3. -/
theorem mutexSpin_lock_never_records_holder :
    MutexSpin.lock 3 MutexSpin.new = some ⟨0, true⟩ ∧
    MutexSpin.get_allocation ⟨0, true⟩ = some [0] ∧
    MutexSpin.get_allocation ⟨0, true⟩ ≠ some [3] := by
  decide

/-- **C10**.  `increment_syscall_count` increments (in u32 arithmetic)
exactly the entry at `syscall_id` when `syscall_id < MAX_SYSCALL_NUM`,
leaves every other entry and the array length unchanged, and is a no-op
for `syscall_id ≥ MAX_SYSCALL_NUM`. -/
theorem increment_syscall_count_correct (t : TaskControlBlock) (id j : Nat)
    (hlen : t.syscall_count.length = MAX_SYSCALL_NUM) :
    (id < MAX_SYSCALL_NUM →
      (t.increment_syscall_count id).syscall_count.getD id 0
        = (t.syscall_count.getD id 0 + 1) % 2 ^ 32) ∧
    (j ≠ id →
      (t.increment_syscall_count id).syscall_count.getD j 0 = t.syscall_count.getD j 0) ∧
    ((t.increment_syscall_count id).syscall_count.length = t.syscall_count.length) ∧
    (MAX_SYSCALL_NUM ≤ id → t.increment_syscall_count id = t) := by
  unfold TaskControlBlock.increment_syscall_count
  by_cases hid : id < MAX_SYSCALL_NUM
  · rw [if_pos hid]
    refine ⟨fun _ => ?_, fun hj => ?_, by simp, fun hge => absurd hid (by omega)⟩
    · have hlt : id < t.syscall_count.length := by omega
      simp [List.getD, List.getElem?_set_self', hlt]
    · simp [List.getD, List.getElem?_set_ne (fun he => hj he.symm)]
  · rw [if_neg hid]
    exact ⟨fun h' => absurd h' hid, fun _ => rfl, rfl, fun _ => rfl⟩

/-- The fresh task control block's counter array has length
`MAX_SYSCALL_NUM`. -/
theorem taskControlBlock_new_length :
    TaskControlBlock.new.syscall_count.length = MAX_SYSCALL_NUM := by
  simp only [TaskControlBlock.new, MAX_SYSCALL_NUM, List.length_replicate]

set_option maxRecDepth 4000 in
/-- Witness for `increment_syscall_count_correct` on a fresh task control
block, at in-range index 3 (other index 7) and out-of-range index 600. -/
theorem increment_syscall_count_correct_witness :
    ((TaskControlBlock.new.increment_syscall_count 3).syscall_count.getD 3 0
      = (TaskControlBlock.new.syscall_count.getD 3 0 + 1) % 2 ^ 32) ∧
    ((TaskControlBlock.new.increment_syscall_count 3).syscall_count.getD 7 0
      = TaskControlBlock.new.syscall_count.getD 7 0) ∧
    (TaskControlBlock.new.increment_syscall_count 600 = TaskControlBlock.new) :=
  ⟨(increment_syscall_count_correct TaskControlBlock.new 3 7 taskControlBlock_new_length).1
      (by decide),
   (increment_syscall_count_correct TaskControlBlock.new 3 7 taskControlBlock_new_length).2.1
      (by decide),
   (increment_syscall_count_correct TaskControlBlock.new 600 0 taskControlBlock_new_length).2.2.2
      (by decide)⟩

/-- Witness for `fifo_wake_order` at concrete states: an empty locked
mutex / drained semaphore with A = 1 blocking before B = 2, and generic
prefix instances on the queue `[5, 6]`. -/
theorem fifo_wake_order_witness :
    (MutexBlocking.unlockN 2 (MutexBlocking.lock 2
      (MutexBlocking.lock 1 ⟨true, 0, []⟩).1).1).2 = [1, 2] ∧
    (Semaphore.upN [8, 9] (Semaphore.down 2
      (Semaphore.down 1 ⟨0, [], []⟩).1).1).2 = [1, 2] ∧
    (MutexBlocking.unlockN 3 ⟨true, 0, [5, 6]⟩).2 = [5, 6] ∧
    (Semaphore.upN [8, 9] ⟨-2, [], [5, 6]⟩).2 = [5, 6] :=
  ⟨fifo_wake_order.1 ⟨true, 0, []⟩ 1 2 rfl rfl,
   fifo_wake_order.2.1 ⟨0, [], []⟩ 1 2 8 9 (by decide) rfl,
   fifo_wake_order.2.2.1 3 ⟨true, 0, [5, 6]⟩ rfl,
   fifo_wake_order.2.2.2 [8, 9] ⟨-2, [], [5, 6]⟩ (by decide)⟩

/-- `findEnum` returns the element at the returned index, and that element
satisfies the predicate. -/
theorem findEnum_sound (f : ChildProc → Bool) :
    ∀ (l : List ChildProc) (i : Nat) (c : ChildProc),
      findEnum f l = some (i, c) → l.get? i = some c ∧ f c = true := by
  intro l
  induction l with
  | nil =>
    intro i c h
    simp [findEnum] at h
  | cons x xs ih =>
    intro i c h
    by_cases hf : f x
    · rw [findEnum, if_pos hf] at h
      simp only [Option.some.injEq, Prod.mk.injEq] at h
      obtain ⟨hi, hc⟩ := h
      subst hi
      subst hc
      exact ⟨rfl, hf⟩
    · rw [findEnum, if_neg hf] at h
      rcases hm : findEnum f xs with _ | ⟨j, d⟩
      · rw [hm] at h
        simp at h
      · rw [hm] at h
        simp only [Option.map_some', Option.some.injEq, Prod.mk.injEq] at h
        obtain ⟨hi, hc⟩ := h
        subst hc
        rw [← hi]
        exact ⟨(ih j d hm).1, (ih j d hm).2⟩

/-- **C8**.  `sys_waitpid`: result `-1` when no child matches `pid`
(`pid = -1` matches any child); result `-2` with the child list unchanged
and nothing written when a match exists but no matching child is a
Zombie; otherwise the first matching Zombie child is removed from the
list, its exit code is written through the pointer, and its pid is
returned. -/
theorem sys_waitpid_correct (children : List ChildProc) (pid : Int) (i : Nat)
    (c : ChildProc) :
    (children.any (matchesPid pid) = false →
      sys_waitpid children pid = (children, none, -1)) ∧
    (children.any (matchesPid pid) = true →
      findEnum (fun p => p.is_zombie && matchesPid pid p) children = none →
      sys_waitpid children pid = (children, none, -2)) ∧
    (findEnum (fun p => p.is_zombie && matchesPid pid p) children = some (i, c) →
      children.get? i = some c ∧ c.is_zombie = true ∧ matchesPid pid c = true ∧
      sys_waitpid children pid = (children.eraseIdx i, some c.exit_code, (c.pid : Int))) := by
  refine ⟨fun h => ?_, fun h hn => ?_, fun hf => ?_⟩
  · unfold sys_waitpid
    rw [if_pos h]
  · unfold sys_waitpid
    rw [if_neg (by rw [h]; simp), hn]
  · have hs := findEnum_sound _ children i c hf
    have hz : c.is_zombie = true ∧ matchesPid pid c = true := by
      have hb := hs.2
      simp only [Bool.and_eq_true] at hb
      exact hb
    have hmem : c ∈ children := List.get?_mem hs.1
    have hany : children.any (matchesPid pid) = true := by
      rw [List.any_eq_true]
      exact ⟨c, hmem, hz.2⟩
    refine ⟨hs.1, hz.1, hz.2, ?_⟩
    unfold sys_waitpid
    rw [if_neg (by rw [hany]; simp), hf]

/-- For a valid port (`port < 8`, `port % 8 ≠ 0`) the decode table equals
the independent bit decode: bit0 = R, bit1 = W, bit2 = X. -/
theorem decodePort_eq (port : Nat) (h2 : port < 8) (h3 : port % 8 ≠ 0) :
    decodePort port = some ⟨port.testBit 0, port.testBit 1, port.testBit 2, false⟩ := by
  interval_cases port
  · exact absurd rfl h3
  all_goals decide

/-- **C6** counterexample.  `sys_mmap(start := 0, len := 1, port := 1)`
with page 0 already mapped: `start` is page-aligned, `port` is valid, and
the requested range `[0, 1)` lies inside page 0, which is already mapped
— the claim demands -1.  The code checks the page range
`[floor 0, floor (0+1)) = [0, 0)`, which is empty, so it sees no overlap
and returns 0. -/
theorem sys_mmap_overlap_missed_counterexample :
    0 % PAGE_SIZE = 0 ∧
    ¬ (8 ≤ 1 ∨ 1 % 8 = 0) ∧
    MemorySet.isMapped [⟨0, 1, ⟨true, true, false, true⟩⟩] (vaFloor 0) = true ∧
    (sys_mmap [⟨0, 1, ⟨true, true, false, true⟩⟩] 0 1 1).2 = 0 := by
  decide

/-- **C6** (amended).  `sys_mmap` returns -1 with the memory set unchanged
when `start` is not page-aligned, when `port` has a bit above the low 3
set or all three low bits zero, or when any page in
`[start / PAGE_SIZE, (start + len) / PAGE_SIZE)` is already mapped — the
final partially covered page of a length that is not a page multiple is
*not* checked, so a request whose only overlap lies in that page returns
0 rather than -1 (with `insert_framed_area` then failing as a no-op on
the overlap, per its spec); when no page of the whole rounded range is
mapped, the call appends a framed area covering
`[floor start, ceil (start + len))` with the bit-decoded R/W/X
permissions plus the User flag and returns 0. -/
theorem sys_mmap_correct (ms : MemorySet) (start len port : Nat) :
    (start % PAGE_SIZE ≠ 0 → sys_mmap ms start len port = (ms, -1)) ∧
    (8 ≤ port ∨ port % 8 = 0 → sys_mmap ms start len port = (ms, -1)) ∧
    (start % PAGE_SIZE = 0 → port < 8 → port % 8 ≠ 0 →
      MemorySet.check_vpn_range ms (vaFloor start) (vaFloor (start + len)) = true →
      sys_mmap ms start len port = (ms, -1)) ∧
    (start % PAGE_SIZE = 0 → port < 8 → port % 8 ≠ 0 →
      MemorySet.check_vpn_range ms (vaFloor start) (vaFloor (start + len)) = false →
      MemorySet.check_vpn_range ms (vaFloor start) (vaCeil (start + len)) = false →
      sys_mmap ms start len port
        = (ms ++ [⟨vaFloor start, vaCeil (start + len),
            ⟨port.testBit 0, port.testBit 1, port.testBit 2, true⟩⟩], 0)) ∧
    (start % PAGE_SIZE = 0 → port < 8 → port % 8 ≠ 0 →
      MemorySet.check_vpn_range ms (vaFloor start) (vaFloor (start + len)) = false →
      MemorySet.check_vpn_range ms (vaFloor start) (vaCeil (start + len)) = true →
      sys_mmap ms start len port = (ms, 0)) := by
  refine ⟨fun h => ?_, fun h => ?_, fun h1 h2 h3 h4 => ?_, fun h1 h2 h3 h4 h5 => ?_,
    fun h1 h2 h3 h4 h5 => ?_⟩
  · unfold sys_mmap
    rw [if_pos h]
  · unfold sys_mmap
    by_cases h0 : start % PAGE_SIZE ≠ 0
    · rw [if_pos h0]
    · rw [if_neg h0, if_pos h]
  · simp only [sys_mmap, decodePort_eq port h2 h3]
    rw [if_neg (show ¬ start % PAGE_SIZE ≠ 0 by omega),
      if_neg (show ¬ (8 ≤ port ∨ port % 8 = 0) by omega),
      if_pos h4]
  · simp only [sys_mmap, decodePort_eq port h2 h3, MemorySet.insert_framed_area]
    rw [if_neg (show ¬ start % PAGE_SIZE ≠ 0 by omega),
      if_neg (show ¬ (8 ≤ port ∨ port % 8 = 0) by omega),
      if_neg (show ¬ MemorySet.check_vpn_range ms (vaFloor start)
        (vaFloor (start + len)) = true by simp [h4]),
      if_neg (show ¬ MemorySet.check_vpn_range ms (vaFloor start)
        (vaCeil (start + len)) = true by simp [h5])]
  · simp only [sys_mmap, decodePort_eq port h2 h3, MemorySet.insert_framed_area]
    rw [if_neg (show ¬ start % PAGE_SIZE ≠ 0 by omega),
      if_neg (show ¬ (8 ≤ port ∨ port % 8 = 0) by omega),
      if_neg (show ¬ MemorySet.check_vpn_range ms (vaFloor start)
        (vaFloor (start + len)) = true by simp [h4]),
      if_pos h5]

/-- Witness for `sys_mmap_correct`: an unaligned start, an invalid port,
an overlapping request, a successful RWX mapping of page 1, and the
unchecked-final-page corner (overlap only in the partially covered page:
return 0, memory set unchanged). -/
theorem sys_mmap_correct_witness :
    sys_mmap [] 4097 4096 1 = ([], -1) ∧
    sys_mmap [] 4096 4096 8 = ([], -1) ∧
    sys_mmap [⟨1, 2, ⟨true, false, false, true⟩⟩] 4096 4096 1
      = ([⟨1, 2, ⟨true, false, false, true⟩⟩], -1) ∧
    sys_mmap [] 4096 4096 7 = ([⟨1, 2, ⟨true, true, true, true⟩⟩], 0) ∧
    sys_mmap [⟨1, 2, ⟨true, false, false, true⟩⟩] 4096 1 1
      = ([⟨1, 2, ⟨true, false, false, true⟩⟩], 0) :=
  ⟨(sys_mmap_correct [] 4097 4096 1).1 (by decide),
   (sys_mmap_correct [] 4096 4096 8).2.1 (Or.inl (by decide)),
   (sys_mmap_correct [⟨1, 2, ⟨true, false, false, true⟩⟩] 4096 4096 1).2.2.1
     (by decide) (by decide) (by decide) (by decide),
   (sys_mmap_correct [] 4096 4096 7).2.2.2.1 (by decide) (by decide) (by decide)
     (by decide) (by decide),
   (sys_mmap_correct [⟨1, 2, ⟨true, false, false, true⟩⟩] 4096 1 1).2.2.2.2
     (by decide) (by decide) (by decide) (by decide) (by decide)⟩

/-- **C7**.  `sys_munmap` returns -1 and unmaps nothing unless `start`
and `len` are both page-aligned, `len` is non-zero, and an existing
area's bounds exactly equal the requested byte range
`[start, start + len)` (a non-page-aligned `len` can never match an
area's page bounds exactly, so it is rejected); when such an exactly
matching area exists the call removes that area and returns 0; a range
that only partially covers or overlaps an area matches nothing and is
never truncated or partially unmapped. -/
theorem sys_munmap_correct (ms : MemorySet) (start len : Nat) (a : MapArea) :
    (len = 0 ∨ start % PAGE_SIZE ≠ 0 → sys_munmap ms start len = (ms, -1)) ∧
    (len % PAGE_SIZE ≠ 0 → sys_munmap ms start len = (ms, -1)) ∧
    (ms.find_exact_match start (start + len) = none →
      (∀ b ∈ ms, boundsMatch start (start + len) b = false) ∧
      sys_munmap ms start len = (ms, -1)) ∧
    (¬ (len = 0 ∨ start % PAGE_SIZE ≠ 0) →
      ms.find_exact_match start (start + len) = some a →
      a ∈ ms ∧ a.vpn_start * PAGE_SIZE = start ∧ a.vpn_end * PAGE_SIZE = start + len ∧
      sys_munmap ms start len
        = (ms.eraseP (boundsMatch start (start + len)), 0)) := by
  refine ⟨fun h => ?_, fun hlen => ?_, fun hn => ?_, fun h hf => ?_⟩
  · unfold sys_munmap
    rw [if_pos h]
  · by_cases h0 : len = 0 ∨ start % PAGE_SIZE ≠ 0
    · unfold sys_munmap
      rw [if_pos h0]
    · have hnone : List.find? (boundsMatch start (start + len)) ms = none := by
        rw [List.find?_eq_none]
        intro b hb
        simp only [boundsMatch, Bool.and_eq_true, decide_eq_true_eq]
        rintro ⟨hb1, hb2⟩
        have hp : PAGE_SIZE = 4096 := rfl
        rw [hp] at hb1 hb2
        rw [hp] at hlen
        omega
      unfold sys_munmap
      rw [if_neg h0, MemorySet.find_exact_match, hnone]
  · refine ⟨?_, ?_⟩
    · intro b hb
      have := List.find?_eq_none.mp hn b hb
      simpa using this
    · by_cases h0 : len = 0 ∨ start % PAGE_SIZE ≠ 0
      · unfold sys_munmap
        rw [if_pos h0]
      · have hn' : List.find? (boundsMatch start (start + len)) ms = none := hn
        unfold sys_munmap
        rw [if_neg h0, MemorySet.find_exact_match, hn']
  · have hf' : List.find? (boundsMatch start (start + len)) ms = some a := hf
    have hbm := List.find?_some hf'
    simp only [boundsMatch, Bool.and_eq_true, decide_eq_true_eq] at hbm
    refine ⟨List.mem_of_find?_eq_some hf', hbm.1, hbm.2, ?_⟩
    unfold sys_munmap
    rw [if_neg h, MemorySet.find_exact_match, hf']
    rfl

/-- Witness for `sys_munmap_correct`: `len = 0` rejection, a
non-page-aligned `len` rejection, a range with no exactly matching area,
and removal of an exactly matching area. -/
theorem sys_munmap_correct_witness :
    sys_munmap [] 0 0 = ([], -1) ∧
    sys_munmap [⟨0, 1, ⟨true, false, false, true⟩⟩] 0 100
      = ([⟨0, 1, ⟨true, false, false, true⟩⟩], -1) ∧
    sys_munmap [⟨0, 1, ⟨true, false, false, true⟩⟩] 4096 4096
      = ([⟨0, 1, ⟨true, false, false, true⟩⟩], -1) ∧
    sys_munmap [⟨0, 1, ⟨true, false, false, true⟩⟩] 0 4096 = ([], 0) :=
  ⟨(sys_munmap_correct [] 0 0 ⟨0, 0, ⟨false, false, false, false⟩⟩).1 (Or.inl rfl),
   (sys_munmap_correct [⟨0, 1, ⟨true, false, false, true⟩⟩] 0 100
      ⟨0, 0, ⟨false, false, false, false⟩⟩).2.1 (by decide),
   ((sys_munmap_correct [⟨0, 1, ⟨true, false, false, true⟩⟩] 4096 4096
      ⟨0, 0, ⟨false, false, false, false⟩⟩).2.2.1 (by decide)).2,
   ((sys_munmap_correct [⟨0, 1, ⟨true, false, false, true⟩⟩] 0 4096
      ⟨0, 1, ⟨true, false, false, true⟩⟩).2.2.2 (by decide) (by decide)).2.2.2⟩

/-- **C5** (code bug witness).  A 16-byte record (a `TimeVal`) at page
offset 4088 straddles exactly one page boundary: the bridge yields two
ranges of lengths 8 and 8, the first ending at the boundary; a record at
offset 0 yields one range.  `sys_task_info`'s write splits the record and
the concatenation of the two ranges equals the record bytes, as the claim
states; `sys_get_time`'s "cross-page" branch instead stores the whole
record through the first range's raw pointer, so the second range never
receives its half (its old bytes survive), the concatenation differs from
the record, and 8 bytes spill past the end of the first range. -/
theorem record_write_cross_page :
    translated_byte_buffer_lens 4088 16 = [8, 8] ∧ 4088 + 8 = PAGE_SIZE ∧
    translated_byte_buffer_lens 0 16 = [16] ∧
    (sys_get_time_write [1, 2, 3, 4, 5, 6, 7, 8, 9, 10, 11, 12, 13, 14, 15, 16]
        [List.replicate 16 0]).ranges
      = [[1, 2, 3, 4, 5, 6, 7, 8, 9, 10, 11, 12, 13, 14, 15, 16]] ∧
    (sys_task_info_write [1, 2, 3, 4, 5, 6, 7, 8, 9, 10, 11, 12, 13, 14, 15, 16]
        [List.replicate 8 0, List.replicate 8 0]).ranges.flatten
      = [1, 2, 3, 4, 5, 6, 7, 8, 9, 10, 11, 12, 13, 14, 15, 16] ∧
    ¬ ((sys_get_time_write [1, 2, 3, 4, 5, 6, 7, 8, 9, 10, 11, 12, 13, 14, 15, 16]
        [List.replicate 8 0, List.replicate 8 0]).ranges.flatten
      = [1, 2, 3, 4, 5, 6, 7, 8, 9, 10, 11, 12, 13, 14, 15, 16]) ∧
    (sys_get_time_write [1, 2, 3, 4, 5, 6, 7, 8, 9, 10, 11, 12, 13, 14, 15, 16]
        [List.replicate 8 0, List.replicate 8 0]).spilled
      = [9, 10, 11, 12, 13, 14, 15, 16] := by
  decide

/-- Witness for `sys_waitpid_correct`: no matching child (result -1), a
matching but running child (result -2), and reaping a Zombie child with
`pid = -1`. -/
theorem sys_waitpid_correct_witness :
    sys_waitpid [⟨5, false, 0⟩] 7 = ([⟨5, false, 0⟩], none, -1) ∧
    sys_waitpid [⟨5, false, 0⟩] 5 = ([⟨5, false, 0⟩], none, -2) ∧
    sys_waitpid [⟨2, false, 0⟩, ⟨3, true, 42⟩] (-1) = ([⟨2, false, 0⟩], some 42, 3) :=
  ⟨(sys_waitpid_correct [⟨5, false, 0⟩] 7 0 ⟨5, false, 0⟩).1 (by decide),
   (sys_waitpid_correct [⟨5, false, 0⟩] 5 0 ⟨5, false, 0⟩).2.1 (by decide) (by decide),
   ((sys_waitpid_correct [⟨2, false, 0⟩, ⟨3, true, 42⟩] (-1) 1 ⟨3, true, 42⟩).2.2
      (by decide)).2.2.2⟩

end RCore
